import Mathlib

/-!
Shallow embedding of the blockhead repository's order-book, order-lifecycle and
bar-fetching logic, together with proofs settling the specification claims.

Conventions of the embedding:
* `decimal.Decimal` values (prices, sizes) are modelled as `ℚ`.
* Python `dict` feed messages are modelled as structures with `Option` fields;
  a `KeyError` on a missing key is modelled by `Except` with `WSErr.keyError`.
* The `bintrees.RBTree` price maps are modelled as association lists keyed by
  price (`BookSide`); `get`/`insert`/`remove` become `getLevel`/`setLevel`/
  `removeLevel`.  The tree keeps one entry per key; `setLevel` overwrites the
  entry in place and appends a fresh key at the end.
* I/O collaborators (the REST snapshot fetch, the exchange's acknowledgement
  of a placement, the historic-rates endpoint) are modelled as explicit
  parameters carrying the data the call would return.
-/

namespace Blockhead

/-- Order side, the `'buy'` / `'sell'` strings of the source. -/
inductive Side
  | buy
  | sell
deriving DecidableEq, Repr

/-- A resting order as stored in the book: the dict
`{'id': ..., 'side': ..., 'price': ..., 'size': ...}` built by
`GDAXWebsocketClient.add`. -/
structure BookOrder where
  id : String
  side : Side
  price : ℚ
  size : ℚ
deriving DecidableEq, Repr

/-- One side of the book: the `RBTree` mapping price to the list of resting
orders, modelled as an association list with at most one entry per price. -/
abbrev BookSide := List (ℚ × List BookOrder)

/-- `tree.get(price)`. -/
def getLevel (t : BookSide) (p : ℚ) : Option (List BookOrder) :=
  match t with
  | [] => none
  | (q, os) :: rest => if q = p then some os else getLevel rest p

/-- `tree.insert(price, orders)`: overwrite the entry if the key exists,
otherwise add a new entry. -/
def setLevel (t : BookSide) (p : ℚ) (os : List BookOrder) : BookSide :=
  match t with
  | [] => [(p, os)]
  | (q, os0) :: rest => if q = p then (p, os) :: rest else (q, os0) :: setLevel rest p os

/-- `tree.remove(price)` (only called on keys present in the tree). -/
def removeLevel (t : BookSide) (p : ℚ) : BookSide :=
  match t with
  | [] => []
  | (q, os0) :: rest => if q = p then rest else (q, os0) :: removeLevel rest p

/-- The `msg['type']` strings dispatched by `on_message`. -/
inductive MsgType
  | error
  | subscriptions
  | heartbeat
  | match_
  | open_
  | done
  | change
  | received
  | ticker
  | other (s : String)
deriving DecidableEq, Repr

/-- A feed message.  `Option` fields model keys that may be absent from the
dict; `msg['k']` on an absent key raises `KeyError`. -/
structure Msg where
  type : MsgType
  sequence : Option Int := none
  price : Option ℚ := none
  size : Option ℚ := none
  remaining_size : Option ℚ := none
  new_size : Option ℚ := none
  side : Option Side := none
  order_id : Option String := none
  id : Option String := none
  maker_order_id : Option String := none
  reason : Option String := none
  message : Option String := none
  channels : Option (List (String × List String)) := none
deriving DecidableEq, Repr

/-- Exceptions escaping the message handlers: `KeyError` from a missing dict
key, `AssertionError` from the priority assertion in `match`. -/
inductive WSErr
  | keyError
  | assertionError
deriving DecidableEq, Repr

/-- Access a required dict key: `msg['k']`. -/
def need {α : Type} (o : Option α) : Except WSErr α :=
  match o with
  | some a => Except.ok a
  | none => Except.error WSErr.keyError

/-- Python truthiness of `order.get('order_id')` for strings: `None` and the
empty string are falsy in the `or` chain. -/
def strTruthy (o : Option String) : Option String :=
  match o with
  | some s => if s = "" then none else some s
  | none => none

/-- Python truthiness of `order.get('size')` for `Decimal`: `None` and zero are
falsy in the `or` chain. -/
def qTruthy (o : Option ℚ) : Option ℚ :=
  match o with
  | some q => if q = 0 then none else some q
  | none => none

/-- One level-3 snapshot entry `[price, size, order_id]` from
`get_product_order_book`. -/
structure SnapEntry where
  price : ℚ
  size : ℚ
  id : String
deriving DecidableEq, Repr

/-- The snapshot returned by `get_product_order_book(level=3)`. -/
structure Snapshot where
  bids : List SnapEntry
  asks : List SnapEntry
  sequence : Int
deriving DecidableEq, Repr

/-- The mutable state of `GDAXWebsocketClient` touched by message processing:
the two book sides, the feed sequence number (`-1` until the first snapshot),
the message counter, the last match ticker, and the bar-building fields. -/
structure WSState where
  _asks : BookSide
  _bids : BookSide
  _sequence : Int
  message_count : Int
  _current_ticker : Option Msg
  high_price : ℚ
  low_price : ℚ
  open_price : Option ℚ
  close_price : Option ℚ
  prev_close_price : Option ℚ
  volume : ℚ
deriving DecidableEq, Repr

namespace GDAXWebsocketClient

/-- `GDAXWebsocketClient.add`: build the resting order from the message
(`order.get('order_id') or order['id']`, `order.get('size') or
order['remaining_size']`) and append it to the tail of its price level,
creating the level if absent. -/
def add (s : WSState) (msg : Msg) : Except WSErr WSState :=
  match need ((strTruthy msg.order_id).or msg.id) with
  | Except.error e => Except.error e
  | Except.ok oid =>
  match need msg.side with
  | Except.error e => Except.error e
  | Except.ok side =>
  match need msg.price with
  | Except.error e => Except.error e
  | Except.ok price =>
  match need ((qTruthy msg.size).or msg.remaining_size) with
  | Except.error e => Except.error e
  | Except.ok size =>
  let ord : BookOrder := { id := oid, side := side, price := price, size := size }
  if side = Side.buy then
    match getLevel s._bids price with
    | none => Except.ok { s with _bids := setLevel s._bids price [ord] }
    | some bids => Except.ok { s with _bids := setLevel s._bids price (bids ++ [ord]) }
  else
    match getLevel s._asks price with
    | none => Except.ok { s with _asks := setLevel s._asks price [ord] }
    | some asks => Except.ok { s with _asks := setLevel s._asks price (asks ++ [ord]) }

/-- `GDAXWebsocketClient.remove`: drop every order with the named id from the
level's list; keep the level if the remainder is non-empty, otherwise remove
the level.  A missing level is a silent no-op.  (With an empty list the
comprehension never reads `order['order_id']`, hence the separate `[]` case.) -/
def remove (s : WSState) (msg : Msg) : Except WSErr WSState :=
  match need msg.price with
  | Except.error e => Except.error e
  | Except.ok price =>
  match need msg.side with
  | Except.error e => Except.error e
  | Except.ok side =>
  if side = Side.buy then
    match getLevel s._bids price with
    | none => Except.ok s
    | some [] => Except.ok { s with _bids := removeLevel s._bids price }
    | some (b0 :: brest) =>
      match need msg.order_id with
      | Except.error e => Except.error e
      | Except.ok oid =>
        let kept := (b0 :: brest).filter (fun o => o.id ≠ oid)
        if kept.length > 0 then
          Except.ok { s with _bids := setLevel s._bids price kept }
        else
          Except.ok { s with _bids := removeLevel s._bids price }
  else
    match getLevel s._asks price with
    | none => Except.ok s
    | some [] => Except.ok { s with _asks := removeLevel s._asks price }
    | some (a0 :: arest) =>
      match need msg.order_id with
      | Except.error e => Except.error e
      | Except.ok oid =>
        let kept := (a0 :: arest).filter (fun o => o.id ≠ oid)
        if kept.length > 0 then
          Except.ok { s with _asks := setLevel s._asks price kept }
        else
          Except.ok { s with _asks := removeLevel s._asks price }

/-- `GDAXWebsocketClient.match`: if the level is missing or empty, return
silently; otherwise assert the maker is at the head
(`assert bids[0]['id'] == order['maker_order_id']`), then either drop the head
(full fill, `bids[1:]` — which may be the empty list) or reduce its size. -/
def match_ (s : WSState) (msg : Msg) : Except WSErr WSState :=
  match need msg.size with
  | Except.error e => Except.error e
  | Except.ok size =>
  match need msg.price with
  | Except.error e => Except.error e
  | Except.ok price =>
  match need msg.side with
  | Except.error e => Except.error e
  | Except.ok side =>
  if side = Side.buy then
    match getLevel s._bids price with
    | none => Except.ok s
    | some [] => Except.ok s
    | some (h :: t) =>
      match need msg.maker_order_id with
      | Except.error e => Except.error e
      | Except.ok maker =>
        if h.id = maker then
          if h.size = size then
            Except.ok { s with _bids := setLevel s._bids price t }
          else
            Except.ok { s with _bids := setLevel s._bids price ({ h with size := h.size - size } :: t) }
        else
          Except.error WSErr.assertionError
  else
    match getLevel s._asks price with
    | none => Except.ok s
    | some [] => Except.ok s
    | some (h :: t) =>
      match need msg.maker_order_id with
      | Except.error e => Except.error e
      | Except.ok maker =>
        if h.id = maker then
          if h.size = size then
            Except.ok { s with _asks := setLevel s._asks price t }
          else
            Except.ok { s with _asks := setLevel s._asks price ({ h with size := h.size - size } :: t) }
        else
          Except.error WSErr.assertionError

/-- Replace the size of the order at the given index of a level, in place:
`bids[index]['size'] = new_size`. -/
def setSizeAt (orders : List BookOrder) (index : Nat) (new_size : ℚ) : List BookOrder :=
  match orders, index with
  | [], _ => []
  | o :: rest, 0 => { o with size := new_size } :: rest
  | o :: rest, i + 1 => o :: setSizeAt rest i new_size

/-- `GDAXWebsocketClient.change`: a missing `new_size` or `price` key is caught
(`try`/`except KeyError`) and returns; a missing or non-matching level is a
no-op; otherwise the named order's size is replaced in place.  (The trailing
re-read of the tree in the source is dead code with no effect and is not
modelled.) -/
def change (s : WSState) (msg : Msg) : Except WSErr WSState :=
  match msg.new_size with
  | none => Except.ok s
  | some new_size =>
  match msg.price with
  | none => Except.ok s
  | some price =>
  match need msg.side with
  | Except.error e => Except.error e
  | Except.ok side =>
  if side = Side.buy then
    match getLevel s._bids price with
    | none => Except.ok s
    | some [] => Except.ok s
    | some (b0 :: brest) =>
      match need msg.order_id with
      | Except.error e => Except.error e
      | Except.ok oid =>
        if (b0 :: brest).any (fun o => o.id = oid) then
          let index := ((b0 :: brest).map (fun b => b.id)).indexOf oid
          Except.ok { s with _bids := setLevel s._bids price (setSizeAt (b0 :: brest) index new_size) }
        else
          Except.ok s
  else
    match getLevel s._asks price with
    | none => Except.ok s
    | some [] => Except.ok s
    | some (a0 :: arest) =>
      match need msg.order_id with
      | Except.error e => Except.error e
      | Except.ok oid =>
        if (a0 :: arest).any (fun o => o.id = oid) then
          let index := ((a0 :: arest).map (fun a => a.id)).indexOf oid
          Except.ok { s with _asks := setLevel s._asks price (setSizeAt (a0 :: arest) index new_size) }
        else
          Except.ok s

/-- The message `reset_book` hands to `add` for one snapshot entry. -/
def snapMsg (side : Side) (e : SnapEntry) : Msg :=
  { type := MsgType.open_, side := some side, price := some e.price,
    size := some e.size, id := some e.id }

/-- The `for ... in res['bids'/'asks']` loop of `reset_book`: feed each
snapshot entry to `add` in order. -/
def addAll (side : Side) : WSState → List SnapEntry → Except WSErr WSState
  | s, [] => Except.ok s
  | s, e :: rest =>
    match add s (snapMsg side e) with
    | Except.error err => Except.error err
    | Except.ok s2 => addAll side s2 rest

/-- `GDAXWebsocketClient.reset_book`: discard both trees, fetch the level-3
snapshot (the fetch is the `fetch` parameter), replay each snapshot bid and ask
through `add`, then set `_sequence` from the snapshot. -/
def reset_book (fetch : Snapshot) (s : WSState) : Except WSErr WSState :=
  let s := { s with _asks := ([] : BookSide), _bids := ([] : BookSide) }
  match addAll Side.buy s fetch.bids with
  | Except.error err => Except.error err
  | Except.ok s =>
    match addAll Side.sell s fetch.asks with
    | Except.error err => Except.error err
    | Except.ok s => Except.ok { s with _sequence := fetch.sequence }

/-- `GDAXWebsocketClient.on_sequence_gap`: reset the book from a fresh
snapshot (plus logging). -/
def on_sequence_gap (fetch : Snapshot) (s : WSState) : Except WSErr WSState :=
  reset_book fetch s

/-- The type dispatch of `on_message` (the `elif` chain after the sequence
checks).  `error` and `subscriptions` only log, but the logging reads
`msg['message']` / `msg['channels']`; a `match` also updates the current
ticker and the bar fields. -/
def on_message_dispatch (s : WSState) (msg : Msg) : Except WSErr WSState :=
  match msg.type with
  | MsgType.error =>
    match need msg.message with
    | Except.ok _ => Except.ok s
    | Except.error e => Except.error e
  | MsgType.subscriptions =>
    match need msg.channels with
    | Except.ok _ => Except.ok s
    | Except.error e => Except.error e
  | MsgType.heartbeat => Except.ok s
  | MsgType.match_ =>
    match match_ s msg with
    | Except.error e => Except.error e
    | Except.ok s =>
      let s := { s with _current_ticker := some msg }
      match need msg.price with
      | Except.error e => Except.error e
      | Except.ok close =>
        let s := { s with close_price := some close }
        let s := if close > s.high_price then { s with high_price := close } else s
        let s := if close < s.low_price then { s with low_price := close } else s
        let s := if s.open_price = none then { s with open_price := some close } else s
        match need msg.size with
        | Except.error e => Except.error e
        | Except.ok sz => Except.ok { s with volume := s.volume + sz }
  | MsgType.open_ => add s msg
  | MsgType.done =>
    match msg.price with
    | some _ => remove s msg
    | none => Except.ok s
  | MsgType.change => change s msg
  | MsgType.received => Except.ok s
  | MsgType.ticker => Except.ok s
  | MsgType.other _ => Except.ok s

/-- `GDAXWebsocketClient.on_message`: count the message; reset the book when
uninitialized (`_sequence == -1`); drop a stale message (`sequence <=
self._sequence`); on a gap (`sequence > self._sequence + 1`) run
`on_sequence_gap` and return without applying the message; otherwise dispatch
on the type and finally record the message's sequence. -/
def on_message (fetch : Snapshot) (s0 : WSState) (msg : Msg) : Except WSErr WSState :=
  let s := { s0 with message_count := s0.message_count + 1 }
  if s._sequence = -1 then
    reset_book fetch s
  else
    match msg.sequence with
    | some sequence =>
      if sequence ≤ s._sequence then Except.ok s
      else if sequence > s._sequence + 1 then
        on_sequence_gap fetch s
      else
        match on_message_dispatch s msg with
        | Except.ok s2 => Except.ok { s2 with _sequence := sequence }
        | Except.error e => Except.error e
    | none => on_message_dispatch s msg

end GDAXWebsocketClient

/-! ## order_manager.py: the `Order` lifecycle tracker -/

/-- The `self.state` strings of `Order`: `'initial'`, `'received'`, `'open'`,
`'done'`.  (The source has no distinct rejected state: a rejected placement
sets `'done'`.) -/
inductive OState
  | initial
  | received
  | open_
  | done
deriving DecidableEq, Repr

/-- The `msg['type']` strings handled by `Order.handle_order_update`. -/
inductive OMsgType
  | received
  | open_
  | match_
  | done
  | other (s : String)
deriving DecidableEq, Repr

/-- A feed message as seen by `Order.handle_order_update`.  Only the keys the
handler reads are modelled; the `done` branch's logging reads `msg['reason']`. -/
structure OrdMsg where
  type : OMsgType
  size : Option ℚ := none
  reason : Option String := none
deriving DecidableEq, Repr

/-- The placement response consumed by `Order.begin`
(`res = await self.omgr.buy/sell(self)`).  `res['status']` is read
unconditionally; `res['reason']` on rejection; `res['size']` otherwise;
`res['id']` is read by `OrderManager.buy`/`sell` via `'id' in res`. -/
structure AckRes where
  status : String
  reason : Option String := none
  size : Option ℚ := none
  id : Option String := none
deriving DecidableEq, Repr

/-- The fields of `Order` (order_manager.py).  The `details` dict is a
log-only store (`self.details.update(...)`, read nowhere) and is not
modelled; `omgr` is the order-manager reference and appears as explicit
parameters of the operations. -/
structure Order where
  size : ℚ
  pair : String
  limit_price : Option ℚ
  total : ℚ
  outstanding : ℚ
  placed : ℚ
  filled : ℚ
  state : OState
  client_oid : String
  order_id : Option String
deriving DecidableEq, Repr

/-- `Order.__init__`: signed size, totals `abs(size)`, zero placed/filled,
state `'initial'`, no exchange id yet. -/
def Order.init (size : ℚ) (pair : String) (limit_price : Option ℚ)
    (client_oid : String) : Order :=
  { size := size, pair := pair, limit_price := limit_price,
    total := |size|, outstanding := |size|, placed := 0, filled := 0,
    state := OState.initial, client_oid := client_oid, order_id := none }

/-- Round-half-even on `ℚ`, the default `decimal` rounding mode. -/
def roundHalfEven (x : ℚ) : ℤ :=
  let f := ⌊x⌋
  let frac := x - f
  if frac < 1 / 2 then f
  else if frac > 1 / 2 then f + 1
  else if f % 2 = 0 then f else f + 1

/-- `Decimal.quantize(Order.FIVE_PLACES)`: round to five decimal places,
ties to even. -/
def quantize5 (x : ℚ) : ℚ := (roundHalfEven (x * 100000) : ℚ) / 100000

/-- `Order.handle_order_update`: `received`/`open` overwrite the state
unconditionally; `match` adds the matched size to `filled` and quantizes it
(`filled == total` only logs completion — no state change, no error); `done`
logs `msg['reason']` and sets the state to `'done'`.  No branch checks the
current state before transitioning. -/
def Order.handle_order_update (o : Order) (msg : OrdMsg) : Except WSErr Order :=
  match msg.type with
  | OMsgType.received => Except.ok { o with state := OState.received }
  | OMsgType.open_ => Except.ok { o with state := OState.open_ }
  | OMsgType.match_ =>
    match need msg.size with
    | Except.error e => Except.error e
    | Except.ok sz => Except.ok { o with filled := quantize5 (o.filled + sz) }
  | OMsgType.done =>
    match need msg.reason with
    | Except.error e => Except.error e
    | Except.ok _ => Except.ok { o with state := OState.done }
  | OMsgType.other _ => Except.ok o

/-- The mutations `OrderManager.buy`/`sell` perform on the order around the
REST call: resolve a missing limit price to the top of book (`top`, fetched
from the order book), and record the exchange id when the response carries
one. -/
def OrderManager.applyPlace (top : ℚ) (res : AckRes) (o : Order) : Order :=
  let o := if o.limit_price = none then { o with limit_price := some top } else o
  if res.id.isSome then { o with order_id := res.id } else o

/-- `Order.begin`: place via `omgr.buy` (size > 0) or `omgr.sell` (the two
branches differ only in the REST call; `res` carries its outcome).  A
`'rejected'` status logs `res['reason']` and sets the state to `'done'`;
otherwise `placed` is set from `res['size']`. -/
def Order.begin (top : ℚ) (res : AckRes) (o : Order) : Except WSErr Order :=
  let o := OrderManager.applyPlace top res o
  if res.status = "rejected" then
    match need res.reason with
    | Except.error e => Except.error e
    | Except.ok _ => Except.ok { o with state := OState.done }
  else
    match need res.size with
    | Except.error e => Except.error e
    | Except.ok sz => Except.ok { o with placed := sz }

/-! ## data.py: bar fetching with retries -/

/-- One batch of bars as returned by `fetch_bar_batch`.  The DataFrame
post-processing (timestamps, sorting) is abstracted into the payload:
`firstIndex` is `bars.index[0]`, used to step the outer loop backwards. -/
structure Bars where
  firstIndex : Int
  rows : List Int
deriving DecidableEq, Repr

/-- The outcome of one `get_product_historic_rates` call: a timeout, an HTTP
error response with a status code, or a batch of bars. -/
inductive BatchCall
  | timeout
  | clientErr (code : Int)
  | ok (bars : Bars)
deriving DecidableEq, Repr

/-- Errors surfaced by the fetchers: `asyncio.TimeoutError` re-raised after
exhausting attempts, `aiohttp.ClientResponseError` re-raised immediately, and
an artefact of the embedding when the call script runs out. -/
inductive FetchErr
  | timeoutError
  | clientResponseError (code : Int)
  | scriptEnded
deriving DecidableEq, Repr

/-- The retry loop of `fetch_bar_batch`: `attempts = 0`, `max_attempts = 5`,
`while attempts <= max_attempts`.  A successful call breaks out; a timeout
increments `attempts` and re-raises once `attempts == max_attempts`; a
`ClientResponseError` (any status, including 429) is re-raised immediately.
Each loop iteration consumes the next scripted call outcome. -/
def fetch_bar_batch_go : List BatchCall → Nat → Except FetchErr Bars
  | [], _ => Except.error FetchErr.scriptEnded
  | c :: rest, attempts =>
    if attempts ≤ 5 then
      match c with
      | BatchCall.ok bars => Except.ok bars
      | BatchCall.timeout =>
        if attempts + 1 = 5 then Except.error FetchErr.timeoutError
        else fetch_bar_batch_go rest (attempts + 1)
      | BatchCall.clientErr code => Except.error (FetchErr.clientResponseError code)
    else Except.error FetchErr.scriptEnded

/-- `fetch_bar_batch`, starting from zero attempts. -/
def fetch_bar_batch (calls : List BatchCall) : Except FetchErr Bars :=
  fetch_bar_batch_go calls 0

/-- The local variables of the `fetch_bars` loop: the moving `end`, the fixed
`complete` (start), the current back-off `sleep_time` (initially `0.5`), the
cumulative 429 `failures` count, and the accumulated batches. -/
structure FBState where
  endT : Int
  complete : Int
  sleep_time : ℚ
  failures : Nat
  all_bars : List Bars
deriving DecidableEq, Repr

/-- The `while end > complete` loop of `fetch_bars`.  Each iteration performs
one `fetch_bar_batch` call (its scripted attempt outcomes are the next entry
of `script`).  A 429 response error increments `failures`, sets `sleep_time =
2 ** failures`, sleeps and retries; any other response error breaks to save
what was already downloaded; a timeout error propagates uncaught.  On success
the batch is appended and `end` moves back to `bars.index[0]`.  `time.sleep`
has no modelled effect beyond `sleep_time` itself. -/
def fetch_bars_go : List (List BatchCall) → FBState → Except FetchErr FBState
  | [], st =>
    if st.endT > st.complete then Except.error FetchErr.scriptEnded
    else Except.ok st
  | calls :: rest, st =>
    if st.endT > st.complete then
      match fetch_bar_batch calls with
      | Except.error (FetchErr.clientResponseError code) =>
        if code = 429 then
          fetch_bars_go rest
            { st with failures := st.failures + 1,
                      sleep_time := 2 ^ (st.failures + 1) }
        else
          Except.ok st
      | Except.error e => Except.error e
      | Except.ok bars =>
        fetch_bars_go rest
          { st with all_bars := st.all_bars ++ [bars], endT := bars.firstIndex }
    else Except.ok st

/-- `fetch_bars`: run the loop from `sleep_time = 0.5`, `failures = 0`; if any
batches were collected, return them in chronological order (`all_bars.reverse`,
the final `concat` and date slice abstracted), else `None`. -/
def fetch_bars (endT complete : Int) (script : List (List BatchCall)) :
    Except FetchErr (Option (List Bars)) :=
  (fetch_bars_go script
      { endT := endT, complete := complete, sleep_time := 1 / 2,
        failures := 0, all_bars := [] }).map
    (fun st => if st.all_bars.length ≠ 0 then some st.all_bars.reverse else none)

/-! ## Derived notions used to state the claims -/

/-- Select a side's price map, `self._bids` for `'buy'` and `self._asks` for
`'sell'`. -/
def sideLevels (s : WSState) : Side → BookSide
  | Side.buy => s._bids
  | Side.sell => s._asks

/-- The opposite side. -/
def otherSide : Side → Side
  | Side.buy => Side.sell
  | Side.sell => Side.buy

/-- The spec's level invariant: every price level present on either side of
the book holds a non-empty queue of resting orders. -/
def levelsNonEmpty (s : WSState) : Prop :=
  (∀ e ∈ s._bids, e.2 ≠ ([] : List BookOrder)) ∧
  (∀ e ∈ s._asks, e.2 ≠ ([] : List BookOrder))

instance (s : WSState) : Decidable (levelsNonEmpty s) := by
  unfold levelsNonEmpty; infer_instance

/-- The `RBTree` representation invariant: one entry per price. -/
def keysNodup (t : BookSide) : Prop := (t.map Prod.fst).Nodup

instance (t : BookSide) : Decidable (keysNodup t) := by
  unfold keysNodup; infer_instance

/-! ## Lemmas about the association-list price map -/

theorem getLevel_mem {t : BookSide} {p : ℚ} {os : List BookOrder}
    (h : getLevel t p = some os) : (p, os) ∈ t := by
  induction t with
  | nil => simp [getLevel] at h
  | cons hd rest ih =>
    obtain ⟨q, os0⟩ := hd
    by_cases hq : q = p
    · subst hq
      simp [getLevel] at h
      subst h
      exact List.mem_cons_self _ _
    · simp only [getLevel, if_neg hq] at h
      exact List.mem_cons_of_mem _ (ih h)

theorem mem_setLevel {t : BookSide} {p : ℚ} {os : List BookOrder}
    {e : ℚ × List BookOrder} (h : e ∈ setLevel t p os) : e = (p, os) ∨ e ∈ t := by
  induction t with
  | nil =>
    simp [setLevel] at h
    exact Or.inl h
  | cons hd rest ih =>
    obtain ⟨q, os0⟩ := hd
    by_cases hq : q = p
    · subst hq
      simp only [setLevel, if_pos rfl] at h
      rcases List.mem_cons.mp h with h2 | h2
      · exact Or.inl h2
      · exact Or.inr (List.mem_cons_of_mem _ h2)
    · simp only [setLevel, if_neg hq] at h
      rcases List.mem_cons.mp h with h2 | h2
      · exact Or.inr (by simp [h2])
      · rcases ih h2 with h3 | h3
        · exact Or.inl h3
        · exact Or.inr (List.mem_cons_of_mem _ h3)

theorem mem_removeLevel {t : BookSide} {p : ℚ} {e : ℚ × List BookOrder}
    (h : e ∈ removeLevel t p) : e ∈ t := by
  induction t with
  | nil => simp [removeLevel] at h
  | cons hd rest ih =>
    obtain ⟨q, os0⟩ := hd
    by_cases hq : q = p
    · subst hq
      simp only [removeLevel, if_pos rfl] at h
      exact List.mem_cons_of_mem _ h
    · simp only [removeLevel, if_neg hq] at h
      rcases List.mem_cons.mp h with h2 | h2
      · simp [h2]
      · exact List.mem_cons_of_mem _ (ih h2)

theorem getLevel_setLevel_self (t : BookSide) (p : ℚ) (os : List BookOrder) :
    getLevel (setLevel t p os) p = some os := by
  induction t with
  | nil => simp [setLevel, getLevel]
  | cons hd rest ih =>
    obtain ⟨q, os0⟩ := hd
    by_cases hq : q = p
    · subst hq
      simp [setLevel, getLevel]
    · simp [setLevel, getLevel, hq, ih]

theorem getLevel_setLevel_ne (t : BookSide) {p p2 : ℚ} (os : List BookOrder)
    (hne : p2 ≠ p) : getLevel (setLevel t p os) p2 = getLevel t p2 := by
  have hne2 : ¬ p = p2 := fun h => hne h.symm
  induction t with
  | nil => simp [setLevel, getLevel, hne2]
  | cons hd rest ih =>
    obtain ⟨q, os0⟩ := hd
    by_cases hq : q = p
    · subst hq
      simp [setLevel, getLevel, hne2]
    · simp [setLevel, getLevel, hq, ih]

theorem getLevel_eq_none {t : BookSide} {p : ℚ}
    (h : p ∉ t.map Prod.fst) : getLevel t p = none := by
  induction t with
  | nil => simp [getLevel]
  | cons hd rest ih =>
    obtain ⟨q, os0⟩ := hd
    simp only [List.map_cons, List.mem_cons] at h
    push_neg at h
    simp only [getLevel, if_neg (by simpa using Ne.symm h.1)]
    exact ih h.2

theorem getLevel_removeLevel_self {t : BookSide} (p : ℚ) (hnd : keysNodup t) :
    getLevel (removeLevel t p) p = none := by
  induction t with
  | nil => simp [removeLevel, getLevel]
  | cons hd rest ih =>
    obtain ⟨q, os0⟩ := hd
    unfold keysNodup at hnd
    simp only [List.map_cons, List.nodup_cons] at hnd
    by_cases hq : q = p
    · subst hq
      simp only [removeLevel, if_pos rfl]
      exact getLevel_eq_none hnd.1
    · simp only [removeLevel, if_neg hq, getLevel, if_neg hq]
      exact ih hnd.2

theorem getLevel_removeLevel_ne (t : BookSide) {p p2 : ℚ} (hne : p2 ≠ p) :
    getLevel (removeLevel t p) p2 = getLevel t p2 := by
  have hne2 : ¬ p = p2 := fun h => hne h.symm
  induction t with
  | nil => simp [removeLevel]
  | cons hd rest ih =>
    obtain ⟨q, os0⟩ := hd
    by_cases hq : q = p
    · subst hq
      simp [removeLevel, getLevel, hne2]
    · simp [removeLevel, getLevel, hq, ih]

theorem setLevel_getLevel_self {t : BookSide} {p : ℚ} {os : List BookOrder}
    (h : getLevel t p = some os) : setLevel t p os = t := by
  induction t with
  | nil => simp [getLevel] at h
  | cons hd rest ih =>
    obtain ⟨q, os0⟩ := hd
    by_cases hq : q = p
    · subst hq
      simp only [getLevel, if_true, eq_self_iff_true, Option.some.injEq] at h
      simp [setLevel, h]
    · simp only [getLevel, if_neg hq] at h
      simp [setLevel, hq, ih h]

/-! ## Claim C10 -/

/-- Claim C10: if a match message targets a price level that is absent (or
holds no orders) on the given side, the match operation returns silently: the
state is returned unchanged (no book mutation) and no fault is raised, even
though the maker order was not found. -/
theorem C10_match_missing_level_silent_noop (s : WSState) (msg : Msg)
    (side : Side) (sz p : ℚ)
    (hsz : msg.size = some sz) (hp : msg.price = some p)
    (hside : msg.side = some side)
    (hlevel : getLevel (sideLevels s side) p = none ∨
      getLevel (sideLevels s side) p = some []) :
    GDAXWebsocketClient.match_ s msg = Except.ok s := by
  cases side <;> simp only [sideLevels] at hlevel <;>
    rcases hlevel with h | h <;>
    simp [GDAXWebsocketClient.match_, hsz, hp, hside, need, h]

/-- Witness for C10 at a concrete input: an empty book and a buy match at
price 100. -/
def c10S : WSState :=
  { _asks := [], _bids := [], _sequence := 5, message_count := 0,
    _current_ticker := none, high_price := 0, low_price := 0,
    open_price := none, close_price := none, prev_close_price := none,
    volume := 0 }

def c10M : Msg :=
  { type := MsgType.match_, sequence := some 6, price := some 100,
    size := some 2, side := some Side.buy, maker_order_id := some "m1" }

theorem C10_match_missing_level_silent_noop_witness :
    GDAXWebsocketClient.match_ c10S c10M = Except.ok c10S :=
  C10_match_missing_level_silent_noop c10S c10M Side.buy 2 100
    (by rfl) (by rfl) (by rfl) (Or.inl (by rfl))

/-! ## Claim C4 -/

/-- Claim C4: a match whose `maker_order_id` differs from the id at the head
of the queue at the named price level never mutates the queue and always
flags a fault: the priority assertion fires before any mutation, so the call
produces `AssertionError` and no successor state — the book is never silently
reordered. -/
theorem C4_match_priority_violation_faults (s : WSState) (msg : Msg)
    (side : Side) (sz p : ℚ) (mk : String)
    (h0 : BookOrder) (rest : List BookOrder)
    (hsz : msg.size = some sz) (hp : msg.price = some p)
    (hside : msg.side = some side) (hmk : msg.maker_order_id = some mk)
    (hlevel : getLevel (sideLevels s side) p = some (h0 :: rest))
    (hne : h0.id ≠ mk) :
    GDAXWebsocketClient.match_ s msg = Except.error WSErr.assertionError := by
  cases side <;> simp only [sideLevels] at hlevel <;>
    simp [GDAXWebsocketClient.match_, hsz, hp, hside, hmk, need, hlevel, hne]

/-- Witness for C4 at a concrete input: maker `"zzz"` does not match the head
`"m1"` of the bid level at 100. -/
def c4S : WSState :=
  { c10S with
      _bids := [(100, [{ id := "m1", side := Side.buy, price := 100, size := 2 }])] }

def c4M : Msg :=
  { type := MsgType.match_, sequence := some 6, price := some 100,
    size := some 1, side := some Side.buy, maker_order_id := some "zzz" }

theorem C4_match_priority_violation_faults_witness :
    GDAXWebsocketClient.match_ c4S c4M = Except.error WSErr.assertionError :=
  C4_match_priority_violation_faults c4S c4M Side.buy 1 100 "zzz"
    { id := "m1", side := Side.buy, price := 100, size := 2 } []
    (by rfl) (by rfl) (by rfl) (by rfl) (by decide) (by decide)

/-! ## Claim C8 -/

/-- Claim C8: `remove` removes the named order from the queue at its price
level and drops the level when the queue becomes empty; when no order with
that id rests at that price (level absent, or present without the id), the
operation is a no-op returning the book unchanged, not an error.  The
hypotheses `hnodup` (one entry per price, the RBTree representation
invariant) and the non-emptiness of the targeted level (levels are created
non-empty) are representation invariants of the source. -/
theorem C8_remove_semantics (s : WSState) (msg : Msg) (side : Side)
    (p : ℚ) (oid : String)
    (hp : msg.price = some p) (hside : msg.side = some side)
    (ho : msg.order_id = some oid)
    (hnodup : keysNodup (sideLevels s side)) :
    ((∀ q, getLevel (sideLevels s side) p = some q →
        q ≠ [] ∧ ∀ o ∈ q, o.id ≠ oid) →
      GDAXWebsocketClient.remove s msg = Except.ok s)
    ∧ (∀ q, getLevel (sideLevels s side) p = some q →
        ∃ s2, GDAXWebsocketClient.remove s msg = Except.ok s2 ∧
          getLevel (sideLevels s2 side) p =
            (if q.filter (fun o => o.id ≠ oid) = [] then none
             else some (q.filter (fun o => o.id ≠ oid))) ∧
          (∀ p2, p2 ≠ p →
            getLevel (sideLevels s2 side) p2 = getLevel (sideLevels s side) p2) ∧
          sideLevels s2 (otherSide side) = sideLevels s (otherSide side)) := by
  cases side
  case buy =>
    simp only [sideLevels, otherSide] at hnodup ⊢
    constructor
    · intro hnone
      rcases hq : getLevel s._bids p with _ | q
      · simp [GDAXWebsocketClient.remove, hp, hside, need, hq]
      · rcases q with _ | ⟨b0, brest⟩
        · exact absurd rfl (hnone [] hq).1
        · have hall := (hnone _ hq).2
          have hfilter : (b0 :: brest).filter (fun o => o.id ≠ oid) = b0 :: brest :=
            List.filter_eq_self.mpr (fun o homem => by
              simpa using hall o homem)
          have hlen : 0 < ((b0 :: brest).filter (fun o => o.id ≠ oid)).length := by
            rw [hfilter]; simp
          simp only [ne_eq, decide_not] at hfilter hlen
          simp [GDAXWebsocketClient.remove, hp, hside, ho, need, hq, hfilter, hlen,
            setLevel_getLevel_self hq]
    · intro q hq
      rcases q with _ | ⟨b0, brest⟩
      · refine ⟨{ s with _bids := removeLevel s._bids p }, ?_, ?_, ?_, ?_⟩
        · simp [GDAXWebsocketClient.remove, hp, hside, need, hq]
        · rw [if_pos (by simp)]
          simpa using getLevel_removeLevel_self p hnodup
        · intro p2 hp2
          simpa using getLevel_removeLevel_ne _ hp2
        · rfl
      · by_cases hkept : (b0 :: brest).filter (fun o => o.id ≠ oid) = []
        · have hkeptN := hkept
          simp only [ne_eq, decide_not] at hkeptN
          refine ⟨{ s with _bids := removeLevel s._bids p }, ?_, ?_, ?_, ?_⟩
          · simp [GDAXWebsocketClient.remove, hp, hside, ho, need, hq, hkeptN]
          · rw [if_pos hkept]
            simpa using getLevel_removeLevel_self p hnodup
          · intro p2 hp2
            simpa using getLevel_removeLevel_ne _ hp2
          · rfl
        · have hlen : 0 < ((b0 :: brest).filter (fun o => o.id ≠ oid)).length :=
            List.length_pos.mpr hkept
          have hlenN := hlen
          simp only [ne_eq, decide_not] at hlenN
          refine ⟨{ s with
              _bids := setLevel s._bids p
                ((b0 :: brest).filter (fun o => o.id ≠ oid)) }, ?_, ?_, ?_, ?_⟩
          · simp [GDAXWebsocketClient.remove, hp, hside, ho, need, hq, hlenN]
          · rw [if_neg hkept]
            simpa using getLevel_setLevel_self s._bids p _
          · intro p2 hp2
            simpa using getLevel_setLevel_ne _ _ hp2
          · rfl
  case sell =>
    simp only [sideLevels, otherSide] at hnodup ⊢
    constructor
    · intro hnone
      rcases hq : getLevel s._asks p with _ | q
      · simp [GDAXWebsocketClient.remove, hp, hside, need, hq]
      · rcases q with _ | ⟨a0, arest⟩
        · exact absurd rfl (hnone [] hq).1
        · have hall := (hnone _ hq).2
          have hfilter : (a0 :: arest).filter (fun o => o.id ≠ oid) = a0 :: arest :=
            List.filter_eq_self.mpr (fun o homem => by
              simpa using hall o homem)
          have hlen : 0 < ((a0 :: arest).filter (fun o => o.id ≠ oid)).length := by
            rw [hfilter]; simp
          simp only [ne_eq, decide_not] at hfilter hlen
          simp [GDAXWebsocketClient.remove, hp, hside, ho, need, hq, hfilter, hlen,
            setLevel_getLevel_self hq]
    · intro q hq
      rcases q with _ | ⟨a0, arest⟩
      · refine ⟨{ s with _asks := removeLevel s._asks p }, ?_, ?_, ?_, ?_⟩
        · simp [GDAXWebsocketClient.remove, hp, hside, need, hq]
        · rw [if_pos (by simp)]
          simpa using getLevel_removeLevel_self p hnodup
        · intro p2 hp2
          simpa using getLevel_removeLevel_ne _ hp2
        · rfl
      · by_cases hkept : (a0 :: arest).filter (fun o => o.id ≠ oid) = []
        · have hkeptN := hkept
          simp only [ne_eq, decide_not] at hkeptN
          refine ⟨{ s with _asks := removeLevel s._asks p }, ?_, ?_, ?_, ?_⟩
          · simp [GDAXWebsocketClient.remove, hp, hside, ho, need, hq, hkeptN]
          · rw [if_pos hkept]
            simpa using getLevel_removeLevel_self p hnodup
          · intro p2 hp2
            simpa using getLevel_removeLevel_ne _ hp2
          · rfl
        · have hlen : 0 < ((a0 :: arest).filter (fun o => o.id ≠ oid)).length :=
            List.length_pos.mpr hkept
          have hlenN := hlen
          simp only [ne_eq, decide_not] at hlenN
          refine ⟨{ s with
              _asks := setLevel s._asks p
                ((a0 :: arest).filter (fun o => o.id ≠ oid)) }, ?_, ?_, ?_, ?_⟩
          · simp [GDAXWebsocketClient.remove, hp, hside, ho, need, hq, hlenN]
          · rw [if_neg hkept]
            simpa using getLevel_setLevel_self s._asks p _
          · intro p2 hp2
            simpa using getLevel_setLevel_ne _ _ hp2
          · rfl

/-- Witness for C8 at a concrete input: removing `"m2"` from the bid level at
100 leaves `"m1"`; the level stays; removing a missing id is a no-op. -/
def c8S : WSState :=
  { c10S with
      _bids := [(100,
        [{ id := "m1", side := Side.buy, price := 100, size := 2 },
         { id := "m2", side := Side.buy, price := 100, size := 3 }])] }

def c8M : Msg :=
  { type := MsgType.done, sequence := some 6, price := some 100,
    side := some Side.buy, order_id := some "m2" }

theorem C8_remove_semantics_witness :
    ∃ s2, GDAXWebsocketClient.remove c8S c8M = Except.ok s2 ∧
      getLevel (sideLevels s2 Side.buy) 100 =
        (if ([{ id := "m1", side := Side.buy, price := 100, size := 2 },
              { id := "m2", side := Side.buy, price := 100, size := 3 }]
            : List BookOrder).filter (fun o => o.id ≠ "m2") = [] then none
         else some (([{ id := "m1", side := Side.buy, price := 100, size := 2 },
              { id := "m2", side := Side.buy, price := 100, size := 3 }]
            : List BookOrder).filter (fun o => o.id ≠ "m2"))) ∧
      (∀ p2, p2 ≠ 100 →
        getLevel (sideLevels s2 Side.buy) p2 = getLevel (sideLevels c8S Side.buy) p2) ∧
      sideLevels s2 (otherSide Side.buy) = sideLevels c8S (otherSide Side.buy) :=
  (C8_remove_semantics c8S c8M Side.buy 100 "m2"
      (by rfl) (by rfl) (by rfl) (by decide)).2
    [{ id := "m1", side := Side.buy, price := 100, size := 2 },
     { id := "m2", side := Side.buy, price := 100, size := 3 }]
    (by decide)

/-! ## Claim C1 -/

/-- Claim C1: while synced (`_sequence ≠ -1`), for a message carrying sequence
`n`: if `n ≤ current` the whole state is returned unchanged apart from the
message counter (the book is completely untouched — a stale/duplicate no-op);
and whenever such a message is applied (not stale, no gap), the processed
state's sequence is exactly `n = current + 1 > current`, so the book's
sequence strictly increases with every applied message. -/
theorem C1_sequence_monotonic_stale_noop (fetch : Snapshot) (s : WSState)
    (msg : Msg) (n : Int)
    (hsync : s._sequence ≠ -1) (hseq : msg.sequence = some n) :
    (n ≤ s._sequence →
      GDAXWebsocketClient.on_message fetch s msg =
        Except.ok { s with message_count := s.message_count + 1 })
    ∧ (s._sequence < n → n ≤ s._sequence + 1 →
        ∀ s2, GDAXWebsocketClient.on_message fetch s msg = Except.ok s2 →
          s._sequence < s2._sequence ∧ s2._sequence = n) := by
  constructor
  · intro hstale
    simp [GDAXWebsocketClient.on_message, hsync, hseq, hstale]
  · intro h1 h2 s2 hok
    have hnotle : ¬ n ≤ s._sequence := not_le.mpr h1
    have hnotgt : ¬ s._sequence + 1 < n := not_lt.mpr h2
    simp only [GDAXWebsocketClient.on_message, hseq] at hok
    rw [if_neg (by simpa using hsync)] at hok
    rw [if_neg (by simpa using hnotle)] at hok
    rw [if_neg (by simpa using hnotgt)] at hok
    rcases hd : GDAXWebsocketClient.on_message_dispatch
        { s with message_count := s.message_count + 1 } msg with e | s3
    · rw [hd] at hok
      cases hok
    · rw [hd] at hok
      cases hok
      exact ⟨h1, rfl⟩

/-- Witness for C1: with current sequence 5, a stale heartbeat carrying
sequence 3 only bumps the message counter. -/
def c1M : Msg := { type := MsgType.heartbeat, sequence := some 3 }

def c1Snap : Snapshot := { bids := [], asks := [], sequence := 40 }

theorem C1_sequence_monotonic_stale_noop_witness :
    GDAXWebsocketClient.on_message c1Snap c10S c1M =
      Except.ok { c10S with message_count := c10S.message_count + 1 } :=
  (C1_sequence_monotonic_stale_noop c1Snap c10S c1M 3
    (by decide) (by rfl)).1 (by decide)

/-! ## Claim C2 -/

/-- Append an order at the tail of its level, creating the level if absent:
the pure book-side effect of one `add`. -/
def levelAppend (b : BookSide) (p : ℚ) (ord : BookOrder) : BookSide :=
  match getLevel b p with
  | none => setLevel b p [ord]
  | some os => setLevel b p (os ++ [ord])

/-- The book side `reset_book` builds by replaying the snapshot entries of one
side, in order, into an empty tree. -/
def buildSide (side : Side) (entries : List SnapEntry) : BookSide :=
  entries.foldl
    (fun b e => levelAppend b e.price
      { id := e.id, side := side, price := e.price, size := e.size }) []

/-- A snapshot whose entries all have non-zero size (exchange snapshots do: a
zero-size entry would make `add` read the absent `remaining_size` key). -/
def snapOk (fetch : Snapshot) : Prop :=
  (∀ e ∈ fetch.bids, e.size ≠ 0) ∧ (∀ e ∈ fetch.asks, e.size ≠ 0)

instance (fetch : Snapshot) : Decidable (snapOk fetch) := by
  unfold snapOk; infer_instance

theorem add_snapMsg_buy (s : WSState) (e : SnapEntry) (hsz : e.size ≠ 0) :
    GDAXWebsocketClient.add s (GDAXWebsocketClient.snapMsg Side.buy e) =
      Except.ok { s with
        _bids := levelAppend s._bids e.price
          { id := e.id, side := Side.buy, price := e.price, size := e.size } } := by
  simp only [GDAXWebsocketClient.add, GDAXWebsocketClient.snapMsg,
    strTruthy, qTruthy, Option.or, need, if_neg hsz, levelAppend]
  rcases h : getLevel s._bids e.price with _ | os <;> simp [h]

theorem add_snapMsg_sell (s : WSState) (e : SnapEntry) (hsz : e.size ≠ 0) :
    GDAXWebsocketClient.add s (GDAXWebsocketClient.snapMsg Side.sell e) =
      Except.ok { s with
        _asks := levelAppend s._asks e.price
          { id := e.id, side := Side.sell, price := e.price, size := e.size } } := by
  simp only [GDAXWebsocketClient.add, GDAXWebsocketClient.snapMsg,
    strTruthy, qTruthy, Option.or, need, if_neg hsz, levelAppend]
  rcases h : getLevel s._asks e.price with _ | os <;> simp [h]

theorem addAll_buy (entries : List SnapEntry) (s : WSState)
    (hsz : ∀ e ∈ entries, e.size ≠ 0) :
    GDAXWebsocketClient.addAll Side.buy s entries =
      Except.ok { s with
        _bids := entries.foldl
          (fun b e => levelAppend b e.price
            { id := e.id, side := Side.buy, price := e.price, size := e.size })
          s._bids } := by
  induction entries generalizing s with
  | nil => simp [GDAXWebsocketClient.addAll]
  | cons e rest ih =>
    have he : e.size ≠ 0 := hsz e (List.mem_cons_self _ _)
    have hrest : ∀ e2 ∈ rest, e2.size ≠ 0 :=
      fun e2 h2 => hsz e2 (List.mem_cons_of_mem _ h2)
    simp only [GDAXWebsocketClient.addAll, add_snapMsg_buy s e he, List.foldl_cons]
    exact ih _ hrest

theorem addAll_sell (entries : List SnapEntry) (s : WSState)
    (hsz : ∀ e ∈ entries, e.size ≠ 0) :
    GDAXWebsocketClient.addAll Side.sell s entries =
      Except.ok { s with
        _asks := entries.foldl
          (fun b e => levelAppend b e.price
            { id := e.id, side := Side.sell, price := e.price, size := e.size })
          s._asks } := by
  induction entries generalizing s with
  | nil => simp [GDAXWebsocketClient.addAll]
  | cons e rest ih =>
    have he : e.size ≠ 0 := hsz e (List.mem_cons_self _ _)
    have hrest : ∀ e2 ∈ rest, e2.size ≠ 0 :=
      fun e2 h2 => hsz e2 (List.mem_cons_of_mem _ h2)
    simp only [GDAXWebsocketClient.addAll, add_snapMsg_sell s e he, List.foldl_cons]
    exact ih _ hrest

/-- `reset_book` on a well-formed snapshot: both sides are rebuilt from the
snapshot entries alone, the sequence is set to the snapshot's. -/
theorem reset_book_eq (fetch : Snapshot) (s : WSState) (hok : snapOk fetch) :
    GDAXWebsocketClient.reset_book fetch s =
      Except.ok { s with
        _bids := buildSide Side.buy fetch.bids,
        _asks := buildSide Side.sell fetch.asks,
        _sequence := fetch.sequence } := by
  have h2 := addAll_sell fetch.asks
    { s with _asks := ([] : BookSide),
             _bids := List.foldl
               (fun b e => levelAppend b e.price
                 { id := e.id, side := Side.buy, price := e.price, size := e.size })
               ([] : BookSide) fetch.bids } hok.2
  simp only [GDAXWebsocketClient.reset_book]
  rw [addAll_buy fetch.bids _ hok.1]
  simp only [h2]
  simp [buildSide]

/-- Claim C2: a message whose sequence exceeds `current + 1` triggers a
resync: all derived book state is discarded, both sides are rebuilt purely
from the freshly fetched snapshot's bids and asks, the sequence becomes the
snapshot's sequence, the rest of the state is untouched apart from the
message counter — and the gap-signalling message itself is not applied (any
message with the same sequence number produces the identical result). -/
theorem C2_gap_triggers_resync (fetch : Snapshot) (s : WSState) (msg : Msg)
    (n : Int) (hsync : s._sequence ≠ -1) (hseq : msg.sequence = some n)
    (hgap : s._sequence + 1 < n) (hok : snapOk fetch) :
    GDAXWebsocketClient.on_message fetch s msg =
      Except.ok { s with
        message_count := s.message_count + 1,
        _bids := buildSide Side.buy fetch.bids,
        _asks := buildSide Side.sell fetch.asks,
        _sequence := fetch.sequence }
    ∧ (∀ msg2 : Msg, msg2.sequence = some n →
        GDAXWebsocketClient.on_message fetch s msg2 =
          GDAXWebsocketClient.on_message fetch s msg) := by
  have hnotle : ¬ n ≤ s._sequence := not_le.mpr (by omega)
  have key : GDAXWebsocketClient.on_message fetch s msg =
      Except.ok { s with
        message_count := s.message_count + 1,
        _bids := buildSide Side.buy fetch.bids,
        _asks := buildSide Side.sell fetch.asks,
        _sequence := fetch.sequence } := by
    simp only [GDAXWebsocketClient.on_message, hseq]
    rw [if_neg (by simpa using hsync)]
    rw [if_neg (by simpa using hnotle)]
    rw [if_pos (by simpa using hgap)]
    rw [GDAXWebsocketClient.on_sequence_gap, reset_book_eq fetch _ hok]
  refine ⟨key, fun msg2 hseq2 => ?_⟩
  rw [key]
  simp only [GDAXWebsocketClient.on_message, hseq2]
  rw [if_neg (by simpa using hsync)]
  rw [if_neg (by simpa using hnotle)]
  rw [if_pos (by simpa using hgap)]
  rw [GDAXWebsocketClient.on_sequence_gap, reset_book_eq fetch _ hok]

/-- Witness for C2: current sequence 5, gap message at sequence 10, snapshot
at sequence 50 with one bid and one ask. -/
def c2Snap : Snapshot :=
  { bids := [{ price := 100, size := 2, id := "m1" }],
    asks := [{ price := 101, size := 3, id := "m2" }],
    sequence := 50 }

def c2M : Msg := { type := MsgType.open_, sequence := some 10 }

theorem C2_gap_triggers_resync_witness :
    GDAXWebsocketClient.on_message c2Snap c10S c2M =
      Except.ok { c10S with
        message_count := c10S.message_count + 1,
        _bids := buildSide Side.buy c2Snap.bids,
        _asks := buildSide Side.sell c2Snap.asks,
        _sequence := c2Snap.sequence } :=
  (C2_gap_triggers_resync c2Snap c10S c2M 10
    (by decide) (by rfl) (by decide) (by decide)).1

/-! ## Claim C3 -/

theorem sideOk_setLevel {t : BookSide} {p : ℚ} {os : List BookOrder}
    (ht : ∀ e ∈ t, e.2 ≠ ([] : List BookOrder)) (hos : os ≠ []) :
    ∀ e ∈ setLevel t p os, e.2 ≠ ([] : List BookOrder) := by
  intro e he
  rcases mem_setLevel he with h | h
  · subst h
    simpa using hos
  · exact ht e h

theorem sideOk_removeLevel {t : BookSide} {p : ℚ}
    (ht : ∀ e ∈ t, e.2 ≠ ([] : List BookOrder)) :
    ∀ e ∈ removeLevel t p, e.2 ≠ ([] : List BookOrder) :=
  fun e he => ht e (mem_removeLevel he)

theorem add_preserves_levels {s : WSState} {msg : Msg} {s2 : WSState}
    (hs : levelsNonEmpty s)
    (h : GDAXWebsocketClient.add s msg = Except.ok s2) : levelsNonEmpty s2 := by
  unfold GDAXWebsocketClient.add at h
  repeat' split at h
  all_goals cases h
  all_goals
    first
      | exact ⟨sideOk_setLevel hs.1 (by simp), hs.2⟩
      | exact ⟨hs.1, sideOk_setLevel hs.2 (by simp)⟩

theorem remove_preserves_levels {s : WSState} {msg : Msg} {s2 : WSState}
    (hs : levelsNonEmpty s)
    (h : GDAXWebsocketClient.remove s msg = Except.ok s2) : levelsNonEmpty s2 := by
  unfold GDAXWebsocketClient.remove at h
  rcases hp : msg.price with _ | p <;> rw [hp] at h <;> simp only [need] at h
  · cases h
  rcases hside : msg.side with _ | side <;> rw [hside] at h <;> simp only [need] at h
  · cases h
  cases side
  case buy =>
    rw [if_pos rfl] at h
    rcases hq : getLevel s._bids p with _ | q <;> rw [hq] at h
    · cases h
      exact hs
    rcases q with _ | ⟨b0, brest⟩
    · cases h
      exact ⟨sideOk_removeLevel hs.1, hs.2⟩
    rcases ho : msg.order_id with _ | oid <;> rw [ho] at h <;> simp only [need] at h
    · cases h
    by_cases hlen :
        0 < ((b0 :: brest).filter (fun o => o.id ≠ oid)).length
    · rw [if_pos hlen] at h
      cases h
      exact ⟨sideOk_setLevel hs.1 (List.length_pos.mp hlen), hs.2⟩
    · rw [if_neg hlen] at h
      cases h
      exact ⟨sideOk_removeLevel hs.1, hs.2⟩
  case sell =>
    rw [if_neg (by decide)] at h
    rcases hq : getLevel s._asks p with _ | q <;> rw [hq] at h
    · cases h
      exact hs
    rcases q with _ | ⟨a0, arest⟩
    · cases h
      exact ⟨hs.1, sideOk_removeLevel hs.2⟩
    rcases ho : msg.order_id with _ | oid <;> rw [ho] at h <;> simp only [need] at h
    · cases h
    by_cases hlen :
        0 < ((a0 :: arest).filter (fun o => o.id ≠ oid)).length
    · rw [if_pos hlen] at h
      cases h
      exact ⟨hs.1, sideOk_setLevel hs.2 (List.length_pos.mp hlen)⟩
    · rw [if_neg hlen] at h
      cases h
      exact ⟨hs.1, sideOk_removeLevel hs.2⟩

theorem setSizeAt_cons_ne_nil {b0 : BookOrder} {rest : List BookOrder}
    {i : Nat} {v : ℚ} :
    GDAXWebsocketClient.setSizeAt (b0 :: rest) i v ≠ [] := by
  cases i <;> simp [GDAXWebsocketClient.setSizeAt]

theorem change_preserves_levels {s : WSState} {msg : Msg} {s2 : WSState}
    (hs : levelsNonEmpty s)
    (h : GDAXWebsocketClient.change s msg = Except.ok s2) : levelsNonEmpty s2 := by
  unfold GDAXWebsocketClient.change at h
  repeat' split at h
  all_goals cases h
  all_goals try exact hs
  all_goals
    first
      | exact ⟨sideOk_setLevel hs.1 setSizeAt_cons_ne_nil, hs.2⟩
      | exact ⟨hs.1, sideOk_setLevel hs.2 setSizeAt_cons_ne_nil⟩

theorem addAll_preserves_levels (side : Side) :
    ∀ {entries : List SnapEntry} {s s2 : WSState}, levelsNonEmpty s →
      GDAXWebsocketClient.addAll side s entries = Except.ok s2 →
      levelsNonEmpty s2 := by
  intro entries
  induction entries with
  | nil =>
    intro s s2 hs h
    unfold GDAXWebsocketClient.addAll at h
    cases h
    exact hs
  | cons e rest ih =>
    intro s s2 hs h
    unfold GDAXWebsocketClient.addAll at h
    rcases he : GDAXWebsocketClient.add s (GDAXWebsocketClient.snapMsg side e)
        with err | s3
    · rw [he] at h
      cases h
    · rw [he] at h
      exact ih (add_preserves_levels hs he) h

theorem reset_book_preserves_levels {fetch : Snapshot} {s s2 : WSState}
    (h : GDAXWebsocketClient.reset_book fetch s = Except.ok s2) :
    levelsNonEmpty s2 := by
  simp only [GDAXWebsocketClient.reset_book] at h
  rcases h1 : GDAXWebsocketClient.addAll Side.buy
      { s with _asks := ([] : BookSide), _bids := ([] : BookSide) } fetch.bids
      with err | s3
  · rw [h1] at h
    cases h
  · rw [h1] at h
    dsimp only at h
    rcases h2 : GDAXWebsocketClient.addAll Side.sell s3 fetch.asks with err | s4
    · rw [h2] at h
      cases h
    · rw [h2] at h
      cases h
      have hinit : levelsNonEmpty
          { s with _asks := ([] : BookSide), _bids := ([] : BookSide) } :=
        ⟨by simp, by simp⟩
      have h3 := addAll_preserves_levels Side.buy hinit h1
      have h4 := addAll_preserves_levels Side.sell h3 h2
      exact ⟨h4.1, h4.2⟩

/-- Concrete state and message for the C3 counterexample: one bid level at
price 100 holding the single order `"m1"` of size 2, fully matched. -/
def c3S : WSState :=
  { c10S with
      _bids := [(100, [{ id := "m1", side := Side.buy, price := 100, size := 2 }])] }

def c3M : Msg :=
  { type := MsgType.match_, sequence := some 6, price := some 100,
    size := some 2, side := some Side.buy, maker_order_id := some "m1" }

/-- Counterexample to claim C3 as stated: a match that fully fills the only
order at a level stores the empty list back at that price
(`self.set_bids(price, bids[1:])`) instead of removing the level — after this
mutation the book holds a price level with an empty queue. -/
theorem C3_counterexample :
    GDAXWebsocketClient.match_ c3S c3M =
      Except.ok { c3S with _bids := [(100, ([] : List BookOrder))] }
    ∧ ¬ levelsNonEmpty { c3S with _bids := [(100, ([] : List BookOrder))] } := by
  constructor
  · rfl
  · decide

/-- Claim C3 (amended): after `add`, `remove`, `change` and a snapshot load
(`reset_book`), every price level present in the book has a non-empty queue —
a level whose queue empties under `remove` is deleted immediately; `match`,
however, does not maintain this: a match that fully fills the head of a level
whose queue holds only that order leaves the level present with an empty
queue (it is not removed). -/
theorem C3_levels_nonempty_amended :
    (∀ s msg s2, levelsNonEmpty s →
      GDAXWebsocketClient.add s msg = Except.ok s2 → levelsNonEmpty s2)
    ∧ (∀ s msg s2, levelsNonEmpty s →
      GDAXWebsocketClient.remove s msg = Except.ok s2 → levelsNonEmpty s2)
    ∧ (∀ s msg s2, levelsNonEmpty s →
      GDAXWebsocketClient.change s msg = Except.ok s2 → levelsNonEmpty s2)
    ∧ (∀ fetch s s2,
      GDAXWebsocketClient.reset_book fetch s = Except.ok s2 → levelsNonEmpty s2)
    ∧ (∀ (s : WSState) (msg : Msg) (side : Side) (p sz : ℚ) (h0 : BookOrder),
        msg.size = some sz → msg.price = some p → msg.side = some side →
        msg.maker_order_id = some h0.id → h0.size = sz →
        getLevel (sideLevels s side) p = some [h0] →
        ∃ s2, GDAXWebsocketClient.match_ s msg = Except.ok s2 ∧
          getLevel (sideLevels s2 side) p = some ([] : List BookOrder)) := by
  refine ⟨fun s msg s2 hs h => add_preserves_levels hs h,
    fun s msg s2 hs h => remove_preserves_levels hs h,
    fun s msg s2 hs h => change_preserves_levels hs h,
    fun fetch s s2 h => reset_book_preserves_levels h,
    fun s msg side p sz h0 hsz hp hside hmk hfull hlevel => ?_⟩
  cases side
  case buy =>
    simp only [sideLevels] at hlevel ⊢
    refine ⟨{ s with _bids := setLevel s._bids p ([] : List BookOrder) }, ?_, ?_⟩
    · simp [GDAXWebsocketClient.match_, hsz, hp, hside, hmk, need, hlevel, hfull]
    · simpa using getLevel_setLevel_self s._bids p ([] : List BookOrder)
  case sell =>
    simp only [sideLevels] at hlevel ⊢
    refine ⟨{ s with _asks := setLevel s._asks p ([] : List BookOrder) }, ?_, ?_⟩
    · simp [GDAXWebsocketClient.match_, hsz, hp, hside, hmk, need, hlevel, hfull]
    · simpa using getLevel_setLevel_self s._asks p ([] : List BookOrder)

/-- Witness for the amended C3: the level invariant is preserved by a
concrete `add`, and the concrete full-fill match of C3's counterexample state
leaves `some []` at price 100. -/
def c3AddM : Msg :=
  { type := MsgType.open_, sequence := some 6, price := some 100,
    size := some 1, side := some Side.buy, order_id := some "m9" }

theorem C3_levels_nonempty_amended_witness :
    (∃ s2, GDAXWebsocketClient.add c3S c3AddM = Except.ok s2 ∧ levelsNonEmpty s2)
    ∧ (∃ s2, GDAXWebsocketClient.match_ c3S c3M = Except.ok s2 ∧
        getLevel (sideLevels s2 Side.buy) 100 = some ([] : List BookOrder)) := by
  constructor
  · refine ⟨{ c3S with
      _bids := [(100,
        [{ id := "m1", side := Side.buy, price := 100, size := 2 },
         { id := "m9", side := Side.buy, price := 100, size := 1 }])] }, by rfl, ?_⟩
    exact C3_levels_nonempty_amended.1 c3S c3AddM _ (by decide) (by rfl)
  · exact C3_levels_nonempty_amended.2.2.2.2 c3S c3M Side.buy 100 2
      { id := "m1", side := Side.buy, price := 100, size := 2 }
      (by rfl) (by rfl) (by rfl) (by rfl) (by decide) (by decide)

/-! ## Claim C5 -/

theorem quantize5_intCast (n : ℤ) : quantize5 ((n : ℚ)) = n := by
  have h1 : ((n : ℚ)) * 100000 = ((n * 100000 : ℤ) : ℚ) := by push_cast; ring
  simp only [quantize5, roundHalfEven, h1, Int.floor_intCast, sub_self]
  rw [if_pos (by norm_num)]
  push_cast
  field_simp

theorem quantize5_one : quantize5 (1 : ℚ) = 1 := by
  rw [show ((1 : ℚ)) = ((1 : ℤ) : ℚ) by norm_num, quantize5_intCast]

theorem quantize5_one_add_one : quantize5 ((1 : ℚ) + 1) = 2 := by
  rw [show ((1 : ℚ) + 1) = ((2 : ℤ) : ℚ) by norm_num, quantize5_intCast]
  try norm_num

/-- A tracked buy order of total size 1, already open. -/
def c5O0 : Order := { Order.init 1 "BTC-USD" none "c5" with state := OState.open_ }

def c5M : OrdMsg := { type := OMsgType.match_, size := some 1 }

/-- Counterexample to claim C5 as stated: the tracker applies each match's
size with no clamp, so two full-size match messages drive `filled` to 2 while
`total` is 1 — the filled quantity exceeds the order's total quantity. -/
theorem C5_counterexample :
    Order.handle_order_update c5O0 c5M = Except.ok { c5O0 with filled := 1 }
    ∧ Order.handle_order_update { c5O0 with filled := 1 } c5M =
        Except.ok { c5O0 with filled := 2 }
    ∧ ({ c5O0 with filled := 2 } : Order).total <
        ({ c5O0 with filled := 2 } : Order).filled := by
  refine ⟨?_, ?_, ?_⟩
  · simp [Order.handle_order_update, c5M, c5O0, Order.init, need, quantize5_one]
  · simp [Order.handle_order_update, c5M, c5O0, Order.init, need,
      quantize5_one_add_one]
  · simp [c5O0, Order.init]

/-- Claim C5 (amended): for every tracked order, a match message adds the
reported size to `filled` and quantizes the sum to five decimal places, with
no clamp against `total` (an adversarial or duplicated feed can push `filled`
past `total`); reaching `filled = total` is a normal completion signal only —
the update never errors, never changes the state, and there is no distinct
completed state. -/
theorem C5_filled_update_amended (o : Order) (msg : OrdMsg) (sz : ℚ)
    (hty : msg.type = OMsgType.match_) (hsz : msg.size = some sz) :
    Order.handle_order_update o msg =
      Except.ok { o with filled := quantize5 (o.filled + sz) }
    ∧ ∀ o2, Order.handle_order_update o msg = Except.ok o2 →
        o2.state = o.state ∧ o2.total = o.total := by
  have key : Order.handle_order_update o msg =
      Except.ok { o with filled := quantize5 (o.filled + sz) } := by
    simp [Order.handle_order_update, hty, hsz, need]
  refine ⟨key, fun o2 h2 => ?_⟩
  rw [key] at h2
  cases h2
  exact ⟨rfl, rfl⟩

theorem C5_filled_update_amended_witness :
    Order.handle_order_update c5O0 c5M =
      Except.ok { c5O0 with filled := quantize5 (c5O0.filled + 1) } :=
  (C5_filled_update_amended c5O0 c5M 1 (by rfl) (by rfl)).1

/-! ## Claim C6 -/

def c6O0 : Order := Order.init 1 "BTC-USD" none "c6"

def c6Res : AckRes := { status := "rejected", reason := some "post only" }

def c6O1 : Order := { c6O0 with limit_price := some 100, state := OState.done }

def c6O2 : Order := { c6O1 with state := OState.received }

/-- Counterexample to claim C6 as stated: a rejected placement sets the state
to `'done'` — there is no distinct Rejected state — and nothing is terminal:
a subsequently processed `received` message moves the order out of that state
again. -/
theorem C6_counterexample :
    Order.begin 100 c6Res c6O0 = Except.ok c6O1
    ∧ c6O1.state = OState.done
    ∧ Order.handle_order_update c6O1 { type := OMsgType.received } = Except.ok c6O2
    ∧ c6O2.state = OState.received := by
  exact ⟨rfl, rfl, rfl, rfl⟩

/-- Claim C6 (amended): when the placement acknowledgement reports rejection,
the tracked order's state is set to `'done'` (the same label as ordinary
completion — there is no distinct Rejected state), with nothing placed or
filled; this state is not enforced as terminal: the update handler accepts
further transitions, e.g. a `received` feed message sets the state to
`'received'`. -/
theorem C6_rejection_amended (top : ℚ) (res : AckRes) (o : Order) (r : String)
    (hst : res.status = "rejected") (hr : res.reason = some r) :
    (∃ o2, Order.begin top res o = Except.ok o2 ∧ o2.state = OState.done ∧
      o2.placed = o.placed ∧ o2.filled = o.filled)
    ∧ (∀ (o2 : Order) (msg : OrdMsg), o2.state = OState.done →
        msg.type = OMsgType.received →
        ∀ o3, Order.handle_order_update o2 msg = Except.ok o3 →
          o3.state = OState.received) := by
  constructor
  · refine ⟨{ OrderManager.applyPlace top res o with state := OState.done }, ?_, rfl, ?_, ?_⟩
    · simp [Order.begin, hst, hr, need]
    · simp [OrderManager.applyPlace]
      split <;> split <;> rfl
    · simp [OrderManager.applyPlace]
      split <;> split <;> rfl
  · intro o2 msg h2 hty o3 h3
    simp [Order.handle_order_update, hty] at h3
    rw [← h3]

theorem C6_rejection_amended_witness :
    ∃ o2, Order.begin 100 c6Res c6O0 = Except.ok o2 ∧ o2.state = OState.done ∧
      o2.placed = c6O0.placed ∧ o2.filled = c6O0.filled :=
  (C6_rejection_amended 100 c6Res c6O0 "post only" (by rfl) (by rfl)).1

/-! ## Claim C7 -/

def c7O : Order := { Order.init (-1) "ETH-USD" (some 50) "c7" with state := OState.done }

/-- Counterexample to claim C7 as stated: `handle_order_update` never checks
the current state, so an order already in `'done'` is moved back to
`'received'` by a subsequently processed `received` message — Done is not
terminal. -/
theorem C7_counterexample :
    Order.handle_order_update c7O { type := OMsgType.received } =
      Except.ok { c7O with state := OState.received }
    ∧ ({ c7O with state := OState.received } : Order).state ≠ OState.done := by
  exact ⟨rfl, by decide⟩

/-- Claim C7 (amended): for an order in `'done'`, a subsequently processed
match message leaves the state `'done'` (it only updates `filled`) and a done
message re-records `'done'`; but `'done'` is not enforced as terminal — a
received (resp. open) message changes the state to `'received'`
(resp. `'open'`). -/
theorem C7_done_not_terminal_amended (o : Order) (ho : o.state = OState.done) :
    (∀ (msg : OrdMsg) (sz : ℚ), msg.type = OMsgType.match_ → msg.size = some sz →
      ∀ o2, Order.handle_order_update o msg = Except.ok o2 →
        o2.state = OState.done)
    ∧ (∀ (msg : OrdMsg) (r : String), msg.type = OMsgType.done →
        msg.reason = some r →
        ∀ o2, Order.handle_order_update o msg = Except.ok o2 →
          o2.state = OState.done)
    ∧ (∀ msg : OrdMsg, msg.type = OMsgType.received →
        ∀ o2, Order.handle_order_update o msg = Except.ok o2 →
          o2.state = OState.received)
    ∧ (∀ msg : OrdMsg, msg.type = OMsgType.open_ →
        ∀ o2, Order.handle_order_update o msg = Except.ok o2 →
          o2.state = OState.open_) := by
  refine ⟨fun msg sz hty hsz o2 h2 => ?_, fun msg r hty hr o2 h2 => ?_,
    fun msg hty o2 h2 => ?_, fun msg hty o2 h2 => ?_⟩
  · simp [Order.handle_order_update, hty, hsz, need] at h2
    rw [← h2]
    exact ho
  · simp [Order.handle_order_update, hty, hr, need] at h2
    rw [← h2]
  · simp [Order.handle_order_update, hty] at h2
    rw [← h2]
  · simp [Order.handle_order_update, hty] at h2
    rw [← h2]

theorem C7_done_not_terminal_amended_witness :
    ({ c7O with filled := quantize5 (c7O.filled + 1) } : Order).state =
      OState.done :=
  (C7_done_not_terminal_amended c7O (by rfl)).1
    { type := OMsgType.match_, size := some 1 } 1 (by rfl) (by rfl) _ (by rfl)

/-! ## Claim C9 -/

theorem fetch_bars_429_step (rest : List (List BatchCall)) (st : FBState)
    (hlt : st.complete < st.endT) :
    fetch_bars_go ([BatchCall.clientErr 429] :: rest) st =
      fetch_bars_go rest
        { st with failures := st.failures + 1,
                  sleep_time := 2 ^ (st.failures + 1) } := by
  simp only [fetch_bars_go]
  rw [if_pos hlt]
  rfl

theorem fetch_bars_429_unbounded (n : Nat) (rest : List (List BatchCall))
    (st : FBState) (hlt : st.complete < st.endT) :
    fetch_bars_go (List.replicate n [BatchCall.clientErr 429] ++ rest) st =
      fetch_bars_go rest
        { st with failures := st.failures + n,
                  sleep_time := if n = 0 then st.sleep_time
                                else 2 ^ (st.failures + n) } := by
  induction n generalizing st with
  | zero => simp
  | succ k ih =>
    rw [List.replicate_succ, List.cons_append, fetch_bars_429_step _ _ hlt]
    have step := ih
      { st with failures := st.failures + 1,
                sleep_time := (2 : ℚ) ^ (st.failures + 1) }
      (by exact hlt)
    rw [step]
    rcases Nat.eq_zero_or_pos k with hk | hk
    · subst hk
      simp
    · have hk' : ¬ (k = 0) := by omega
      have hk2 : ¬ (k + 1 = 0) := by omega
      simp only [if_neg hk', if_neg hk2]
      have e1 : st.failures + 1 + k = st.failures + (k + 1) := by omega
      rw [e1]

theorem fetch_bar_batch_five_timeouts (rest : List BatchCall) :
    fetch_bar_batch (List.replicate 5 BatchCall.timeout ++ rest) =
      Except.error FetchErr.timeoutError := rfl

theorem fetch_bar_batch_few_timeouts (k : Nat) (b : Bars) (rest : List BatchCall)
    (hk : k ≤ 4) :
    fetch_bar_batch (List.replicate k BatchCall.timeout ++ (BatchCall.ok b :: rest)) =
      Except.ok b := by
  interval_cases k <;> rfl

/-- Claim C9 (amended): `fetch_bars` retries a rate-limited (HTTP 429) batch
call after sleeping `2 ^ failures` seconds — the sleep doubles on each
successive 429 failure — but the number of 429 retries is unbounded: for
every `n`, a run hitting `n` consecutive 429 responses keeps retrying and
still proceeds, never surfacing a rate-limit failure to the caller.  The
bounded retry with surfaced failure exists only for timeouts inside a single
batch fetch: `fetch_bar_batch` re-raises after its 5th timeout and succeeds
when a response arrives within the first 4 retries. -/
theorem C9_retry_amended :
    (∀ (rest : List (List BatchCall)) (st : FBState), st.complete < st.endT →
      fetch_bars_go ([BatchCall.clientErr 429] :: rest) st =
        fetch_bars_go rest
          { st with failures := st.failures + 1,
                    sleep_time := 2 ^ (st.failures + 1) })
    ∧ (∀ (n : Nat) (rest : List (List BatchCall)) (st : FBState),
        st.complete < st.endT →
        fetch_bars_go (List.replicate n [BatchCall.clientErr 429] ++ rest) st =
          fetch_bars_go rest
            { st with failures := st.failures + n,
                      sleep_time := if n = 0 then st.sleep_time
                                    else 2 ^ (st.failures + n) })
    ∧ (∀ rest : List BatchCall,
        fetch_bar_batch (List.replicate 5 BatchCall.timeout ++ rest) =
          Except.error FetchErr.timeoutError)
    ∧ (∀ (k : Nat) (b : Bars) (rest : List BatchCall), k ≤ 4 →
        fetch_bar_batch
            (List.replicate k BatchCall.timeout ++ (BatchCall.ok b :: rest)) =
          Except.ok b) :=
  ⟨fetch_bars_429_step, fetch_bars_429_unbounded,
   fetch_bar_batch_five_timeouts, fetch_bar_batch_few_timeouts⟩

def c9Bars : Bars := { firstIndex := 0, rows := [1, 2] }

def c9Script : List (List BatchCall) :=
  List.replicate 6 [BatchCall.clientErr 429] ++ [[BatchCall.ok c9Bars]]

/-- Counterexample to claim C9 as stated: a run of `fetch_bars` that hits 6
consecutive rate-limit responses — one more than the code's only attempt
bound, `max_attempts = 5` — is retried every time and completes successfully;
no bound is applied to 429 retries and no failure is surfaced. -/
theorem C9_counterexample :
    (fetch_bars_go c9Script
        { endT := 10, complete := 0, sleep_time := 1 / 2, failures := 0,
          all_bars := [] }).map (fun st => (st.failures, st.all_bars)) =
      Except.ok ((6 : Nat), [c9Bars])
    ∧ fetch_bars 10 0 c9Script = Except.ok (some [c9Bars]) :=
  ⟨rfl, rfl⟩

/-- Witness for the amended C9 at concrete inputs: 6 scripted 429s are all
retried (failures counted, back-off doubled) and the run then succeeds; 5
timeouts surface the timeout error; 2 timeouts before a success succeed. -/
theorem C9_retry_amended_witness :
    (fetch_bars_go c9Script
        { endT := 10, complete := 0, sleep_time := 1 / 2, failures := 0,
          all_bars := [] } =
      fetch_bars_go [[BatchCall.ok c9Bars]]
        { endT := 10, complete := 0,
          sleep_time := if (6 : Nat) = 0 then 1 / 2 else 2 ^ (0 + 6),
          failures := 0 + 6, all_bars := [] })
    ∧ fetch_bar_batch (List.replicate 5 BatchCall.timeout ++ []) =
        Except.error FetchErr.timeoutError
    ∧ fetch_bar_batch
          (List.replicate 2 BatchCall.timeout ++ (BatchCall.ok c9Bars :: [])) =
        Except.ok c9Bars :=
  ⟨C9_retry_amended.2.1 6 [[BatchCall.ok c9Bars]]
      { endT := 10, complete := 0, sleep_time := 1 / 2, failures := 0,
        all_bars := [] } (by decide),
   C9_retry_amended.2.2.1 [],
   C9_retry_amended.2.2.2 2 c9Bars [] (by decide)⟩

end Blockhead
